import Mathlib

/-!
Verification of `src/src/authorization.rs` of the `auth0_client_rs` crate.

Shallow embedding: pure Rust-side values become Lean structures; the external
collaborators (the `reqwest` HTTP transport, the `jsonwebtoken` cryptographic
library's signature check and RSA key construction, and `serde_json`
deserialization of response bodies) are modelled as an explicit environment
`Env` of functions. Network activity is made observable by threading a trace
(the list of URLs fetched by GET, in order) through every function that can
fetch, so that claims about the number and targets of network calls become
statements about the trace.
-/

set_option autoImplicit false

namespace Auth0

/-- Signature algorithms, after `jsonwebtoken::Algorithm` (external crate).
Only the constructors needed to distinguish the cases the code dispatches on. -/
inductive Alg
  | RS256
  | RS384
  | RS512
  | HS256
  | ES256
  | EdDSA
deriving DecidableEq, Repr

/-- Error kinds of the external `jsonwebtoken` crate (`errors::ErrorKind`),
as far as the embedded code paths can produce them. -/
inductive JwtError
  | InvalidToken
  | InvalidSignature
  | InvalidAlgorithm
  | ExpiredSignature
  | InvalidAudience
  | InvalidIssuer
  | MissingRequiredClaim (name : String)
  | Json
deriving DecidableEq, Repr

/-- Modelled from the spec: `crate::error::Error` is not under `src/`; its
variants are inferred from their uses in `src/src/authorization.rs`
(`Error::JwtMissingKid`, `Error::InvalidJwk`, `Error::InvalidJwt(_)` in the
tests) and from the spec's error taxonomy in section 7 (transport failure,
malformed response, malformed token, missing key identifier, invalid key
material, token invalid). -/
inductive Error
  | Transport (msg : String)
  | Serde (msg : String)
  | JwtMissingKid
  | InvalidJwk
  | InvalidJwt (e : JwtError)
deriving DecidableEq, Repr

/-- RSA public parameters of a published key, after
`jsonwebtoken::jwk::RSAKeyParameters` (fields `n` and `e`, kept as the opaque
base64url text blobs the provider published). -/
structure RSAKeyParameters where
  n : String
  e : String
deriving DecidableEq, Repr

/-- Algorithm-specific parameters of a key record, after
`jsonwebtoken::jwk::AlgorithmParameters`: RSA is the supported family, the
remaining constructors stand for every other family. -/
inductive AlgorithmParameters
  | RSA (p : RSAKeyParameters)
  | EllipticCurve
  | OctetKey
  | OctetKeyPair
deriving DecidableEq, Repr

/-- One published key, after `jsonwebtoken::jwk::Jwk`: the common parameter
`key_id` (an `Option<String>`) and the algorithm-specific parameters. -/
structure Jwk where
  kid : Option String
  algorithm : AlgorithmParameters
deriving DecidableEq, Repr

/-- A JSON Web Key Set, after `jsonwebtoken::jwk::JwkSet`. -/
structure JwkSet where
  keys : List Jwk
deriving DecidableEq, Repr

/-- `JwkSet::find` of the external crate: the first key whose `key_id`
equals `Some(kid)`. -/
def JwkSet.find (s : JwkSet) (kid : String) : Option Jwk :=
  s.keys.find? (fun j => j.kid = some kid)

/-- A token header, after `jsonwebtoken::Header`: the declared algorithm and
the optional key identifier. -/
structure Header where
  alg : Alg
  kid : Option String
deriving DecidableEq, Repr

/-- A JSON claim value, as far as claims validation inspects it. -/
inductive ClaimValue
  | num (n : Nat)
  | str (s : String)
  | arr (xs : List String)
  | null
deriving DecidableEq, Repr

/-- The payload object of a token: claim names paired with values. -/
def Payload := List (String × ClaimValue)
deriving DecidableEq, Repr

instance {ε α : Type} [DecidableEq ε] [DecidableEq α] : DecidableEq (Except ε α) := fun x y =>
  match x, y with
  | Except.error a, Except.error b => decidable_of_iff (a = b) (by simp)
  | Except.error _, Except.ok _ => Decidable.isFalse (by simp)
  | Except.ok _, Except.error _ => Decidable.isFalse (by simp)
  | Except.ok a, Except.ok b => decidable_of_iff (a = b) (by simp)

/-- A compact-serialized token, modelled by what the external crate's parsers
extract from it: the result of parsing its header segment, the result of
parsing its payload segment, and the opaque signature segment. A malformed
segment is an `error` carrying the `jsonwebtoken` error kind its parse
raises. -/
structure Token where
  header : Except JwtError Header
  payload : Except JwtError Payload
  sig : String
deriving DecidableEq, Repr

/-- Verification key material, after `jsonwebtoken::DecodingKey`: opaque to
the embedded code, which only ever passes it to the signature oracle. -/
structure DecodingKey where
  raw : String
deriving DecidableEq, Repr

/-- Validation policy, after `jsonwebtoken::Validation` (sets are modelled as
lists). -/
structure Validation where
  required_spec_claims : List String
  leeway : Nat
  validate_exp : Bool
  validate_nbf : Bool
  validate_aud : Bool
  aud : Option (List String)
  iss : Option (List String)
  sub : Option String
  algorithms : List Alg
deriving DecidableEq, Repr

/-- The response of a successful token-endpoint call, after
`AccessTokenResponse` in `src/src/authorization.rs`. -/
structure AccessTokenResponse where
  access_token : String
deriving DecidableEq, Repr

/-- The decoded, verified payload of a token, after `Claims` in
`src/src/authorization.rs`: `pub struct Claims {}` — an empty struct, so
deserialization retains no claim data. -/
structure Claims
deriving DecidableEq, Repr

/-- Pairing of validated header and decoded claims, after
`jsonwebtoken::TokenData<Claims>`. -/
structure TokenData where
  header : Header
  claims : Claims
deriving DecidableEq, Repr

/-- Modelled from the spec: `crate::Auth0Client` is not under `src/`; its
fields are inferred from their uses in `src/src/authorization.rs`
(`client_id`, `client_secret`, `domain`, `audience`, `grant_type`,
`access_token`) and the constructor arguments in the doc examples. The
`grant_type` is kept as its `to_string` rendering. The `http_client` is part
of the environment, not of the client value. -/
structure Auth0Client where
  client_id : String
  client_secret : String
  domain : String
  audience : String
  grant_type : String
  access_token : Option String
deriving DecidableEq, Repr

/-- The environment of external collaborators: the wall clock, the HTTP
transport (GET of a JWKS document; POST of a token request returning a status
code and a body text), `serde_json` deserialization of an
`AccessTokenResponse` body, `DecodingKey::from_rsa_components`, and the
cryptographic signature check performed inside `jsonwebtoken::decode`. -/
structure Env where
  now : Nat
  net : String → Except String JwkSet
  post : String → List (String × String) → Except String (Nat × String)
  parseToken : String → Except String AccessTokenResponse
  rsaKey : String → String → Option DecodingKey
  verifySig : Token → DecodingKey → Alg → Bool

/-- Modelled from the spec: `crate::utils::URL_REGEX` is not under `src/`.
Section 4.1 describes its effect as "normalization of a trailing-slash /
double-slash artifact in URL construction ... a cosmetic fix": a doubled
slash is collapsed to a single one, except the one following the scheme
colon. -/
def normalizeAux : Option Char → List Char → List Char
  | _, [] => []
  | prev, c :: rest =>
    match rest with
    | [] => [c]
    | c2 :: _ =>
      if c == '/' && c2 == '/' && prev != some ':' then
        normalizeAux prev rest
      else
        c :: normalizeAux (some c) rest

/-- `URL_REGEX.replace_all(url, "$1")` as applied by the code before every
request. -/
def normalizeUrl (s : String) : String :=
  String.mk (normalizeAux none s.data)

/-- `jsonwebtoken::decode_header`: parses only the header segment, no
signature check. -/
def decode_header (token : Token) : Except JwtError Header :=
  token.header

/-- Does the payload carry a claim of the given name? -/
def hasClaim (claims : Payload) (name : String) : Bool :=
  claims.any (fun p => p.1 == name)

/-- The value of the named claim, when present. -/
def getClaim (claims : Payload) (name : String) : Option ClaimValue :=
  (claims.find? (fun p => p.1 == name)).map Prod.snd

/-- The five registered claim names `jsonwebtoken`'s validation can check for
presence. -/
def specClaimNames : List String :=
  ["exp", "nbf", "aud", "iss", "sub"]

/-- Required-claims check of `jsonwebtoken`: each required registered claim
must be present in the payload. -/
def checkRequired (v : Validation) (claims : Payload) : Option JwtError :=
  match v.required_spec_claims.find?
      (fun c => specClaimNames.contains c && !(hasClaim claims c)) with
  | some c => some (JwtError.MissingRequiredClaim c)
  | none => none

/-- Expiration check of `jsonwebtoken`: when enabled and an `exp` number is
present, it must not lie further than `leeway` in the past. -/
def checkExp (env : Env) (v : Validation) (claims : Payload) : Option JwtError :=
  if v.validate_exp then
    match getClaim claims "exp" with
    | some (ClaimValue.num exp) =>
        if exp + v.leeway < env.now then some JwtError.ExpiredSignature else none
    | _ => none
  else none

/-- Audience check of `jsonwebtoken`: when enabled and an expected audience
is configured, a present `aud` claim must meet it. -/
def checkAud (v : Validation) (claims : Payload) : Option JwtError :=
  if v.validate_aud then
    match v.aud with
    | none => none
    | some expected =>
      match getClaim claims "aud" with
      | some (ClaimValue.str a) =>
          if expected.contains a then none else some JwtError.InvalidAudience
      | some (ClaimValue.arr xs) =>
          if xs.any (fun a => expected.contains a) then none
          else some JwtError.InvalidAudience
      | some _ => some JwtError.InvalidAudience
      | none => none
  else none

/-- Issuer check of `jsonwebtoken`: when an expected issuer set is
configured, a present `iss` claim must belong to it. -/
def checkIss (v : Validation) (claims : Payload) : Option JwtError :=
  match v.iss with
  | none => none
  | some expected =>
    match getClaim claims "iss" with
    | some (ClaimValue.str i) =>
        if expected.contains i then none else some JwtError.InvalidIssuer
    | some _ => some JwtError.InvalidIssuer
    | none => none

/-- Claims validation of `jsonwebtoken::decode`, run after the signature
check: required claims, then expiration, audience and issuer as
configured. -/
def validateClaims (env : Env) (v : Validation) (claims : Payload) : Option JwtError :=
  match checkRequired v claims with
  | some e => some e
  | none =>
    match checkExp env v claims with
    | some e => some e
    | none =>
      match checkAud v claims with
      | some e => some e
      | none => checkIss v claims

/-- `jsonwebtoken::decode::<Claims>`: parse the header, require the declared
algorithm to be in the policy's allow-list, verify the signature with the
supplied key, parse the payload, validate the claims, and deserialize the
payload into `Claims` — which, `Claims` being the crate's empty struct,
retains nothing. -/
def decode (env : Env) (token : Token) (key : DecodingKey) (v : Validation) :
    Except JwtError TokenData :=
  match token.header with
  | Except.error e => Except.error e
  | Except.ok header =>
    if !(v.algorithms.contains header.alg) then
      Except.error JwtError.InvalidAlgorithm
    else if !(env.verifySig token key header.alg) then
      Except.error JwtError.InvalidSignature
    else
      match token.payload with
      | Except.error e => Except.error e
      | Except.ok claims =>
        match validateClaims env v claims with
        | some e => Except.error e
        | none => Except.ok { header := header, claims := Claims.mk }

/-- `fetch_jwks` of `src/src/authorization.rs`: normalize the URL with
`URL_REGEX`, GET it, deserialize the body as a `JwkSet`. The GET is appended
to the trace whether or not it succeeds. -/
def fetch_jwks (env : Env) (url : String) (tr : List String) :
    Except Error JwkSet × List String :=
  let u := normalizeUrl url
  match env.net u with
  | Except.ok v => (Except.ok v, tr ++ [u])
  | Except.error e => (Except.error (Error.Transport e), tr ++ [u])

/-- `fetch_jwks_if_needed` of `src/src/authorization.rs`: a supplied set is
cloned and returned without network activity; otherwise the canonical
well-known document of the authority is fetched. -/
def fetch_jwks_if_needed (env : Env) (jwks : Option JwkSet) (authority : String)
    (tr : List String) : Except Error JwkSet × List String :=
  match jwks with
  | some j => (Except.ok j, tr)
  | none => fetch_jwks env (authority ++ "/.well-known/jwks.json") tr

/-- `get_jwk` of `src/src/authorization.rs`: search the given set for the
`kid`; on a hit return the found record with the set unchanged; on a miss
fetch once more — note: from the raw `authority`, as the source does — and
search the fresh set, failing with `JwtMissingKid` if still absent. -/
def get_jwk (env : Env) (kid : String) (jwks : JwkSet) (authority : String)
    (tr : List String) : Except Error (Jwk × JwkSet) × List String :=
  match jwks.find kid with
  | some jwk => (Except.ok (jwk, jwks), tr)
  | none =>
    match fetch_jwks env authority tr with
    | (Except.ok jwks2, tr2) =>
      match jwks2.find kid with
      | some jwk => (Except.ok (jwk, jwks2), tr2)
      | none => (Except.error Error.JwtMissingKid, tr2)
    | (Except.error e, tr2) => (Except.error e, tr2)

/-- `valid_jwt` of `src/src/authorization.rs`: parse the header, require a
`kid`, obtain a starting key set, resolve the key, build RSA key material
(any other algorithm family is `InvalidJwk`), decode, and return the decoded
token together with the set resolution ended on. -/
def valid_jwt (env : Env) (token : Token) (authority : String) (validation : Validation)
    (jwks : Option JwkSet) (tr : List String) :
    Except Error (TokenData × JwkSet) × List String :=
  match decode_header token with
  | Except.error e => (Except.error (Error.InvalidJwt e), tr)
  | Except.ok header =>
    match header.kid with
    | none => (Except.error Error.JwtMissingKid, tr)
    | some kid =>
      match fetch_jwks_if_needed env jwks authority tr with
      | (Except.error e, tr1) => (Except.error e, tr1)
      | (Except.ok jwks1, tr1) =>
        match get_jwk env kid jwks1 authority tr1 with
        | (Except.error e, tr2) => (Except.error e, tr2)
        | (Except.ok (jwk, jwks2), tr2) =>
          match jwk.algorithm with
          | AlgorithmParameters.RSA rsa =>
            match env.rsaKey rsa.n rsa.e with
            | none => (Except.error Error.InvalidJwk, tr2)
            | some key =>
              match decode env token key validation with
              | Except.error e => (Except.error (Error.InvalidJwt e), tr2)
              | Except.ok jwt => (Except.ok (jwt, jwks2), tr2)
          | _ => (Except.error Error.InvalidJwk, tr2)

/-- `authenticate_with_body` of `src/src/authorization.rs`: POST the body to
the token endpoint, read the status and the body text — the status is only
logged — and deserialize the body text as an `AccessTokenResponse`. The
client value is returned unchanged. -/
def authenticate_with_body (env : Env) (c : Auth0Client) (body : List (String × String)) :
    Except Error AccessTokenResponse × Auth0Client :=
  let url := normalizeUrl (c.domain ++ "/oauth/token")
  match env.post url body with
  | Except.error e => (Except.error (Error.Transport e), c)
  | Except.ok (_status, respBody) =>
    match env.parseToken respBody with
    | Except.error e => (Except.error (Error.Serde e), c)
    | Except.ok r => (Except.ok r, c)

/-- `authenticate` of `src/src/authorization.rs`: build the
client-credentials body, call `authenticate_with_body`, and on success store
the access token in the client and return it. -/
def authenticate (env : Env) (c : Auth0Client) : Except Error String × Auth0Client :=
  let body := [("grant_type", c.grant_type), ("client_id", c.client_id),
               ("client_secret", c.client_secret), ("audience", c.audience)]
  match authenticate_with_body env c body with
  | (Except.error e, c1) => (Except.error e, c1)
  | (Except.ok r, c1) =>
      (Except.ok r.access_token, { c1 with access_token := some r.access_token })

/-- `access_token` of the `Authenticatable` impl in
`src/src/authorization.rs`: the stored token, cloned. -/
def Auth0Client.accessTokenMethod (c : Auth0Client) : Option String :=
  c.access_token

/-! Concrete test fixtures: a provider publishing one RSA key under kid
"abc", tokens declaring various kids, and environments instantiating the
external collaborators. -/

/-- RSA parameters of the published key. -/
def rsaAbc : RSAKeyParameters :=
  { n := "modulus-abc", e := "AQAB" }

/-- The published RSA key record with kid "abc". -/
def jwkAbc : Jwk :=
  { kid := some "abc", algorithm := AlgorithmParameters.RSA rsaAbc }

/-- A JWKS document containing exactly the one RSA key. -/
def jwksAbc : JwkSet :=
  { keys := [jwkAbc] }

/-- The key material the builder derives from `rsaAbc`. -/
def keyAbc : DecodingKey :=
  { raw := "rsa-modulus-abc-AQAB" }

/-- Header declaring RS256 and kid "abc". -/
def hdrAbc : Header :=
  { alg := Alg.RS256, kid := some "abc" }

/-- A payload carrying a `sub` claim. -/
def payloadSub : Payload :=
  [("sub", ClaimValue.str "user-1")]

/-- A payload carrying no `sub` claim. -/
def payloadNoSub : Payload :=
  [("name", ClaimValue.str "anon")]

/-- A well-formed token with kid "abc" over `payloadSub`, signed by the key
matching `jwkAbc`. -/
def tokenAbc : Token :=
  { header := Except.ok hdrAbc, payload := Except.ok payloadSub, sig := "sig-abc" }

/-- A well-formed token with kid "abc" over `payloadNoSub`, also validly
signed. -/
def tokenNoSub : Token :=
  { header := Except.ok hdrAbc, payload := Except.ok payloadNoSub, sig := "sig-nosub" }

/-- Header declaring a kid no provider key carries. -/
def hdrZzz : Header :=
  { alg := Alg.RS256, kid := some "zzz" }

/-- A token whose kid "zzz" matches no published key. -/
def tokenZzz : Token :=
  { header := Except.ok hdrZzz, payload := Except.ok payloadSub, sig := "sig-zzz" }

/-- Header with no kid at all. -/
def hdrNoKid : Header :=
  { alg := Alg.RS256, kid := none }

/-- A token whose parsed header carries no kid. -/
def tokenNoKid : Token :=
  { header := Except.ok hdrNoKid, payload := Except.ok payloadSub, sig := "sig-nokid" }

/-- An elliptic-curve key record: an unsupported algorithm family. -/
def jwkEc : Jwk :=
  { kid := some "ec1", algorithm := AlgorithmParameters.EllipticCurve }

/-- A key set holding only the elliptic-curve record. -/
def jwksEc : JwkSet :=
  { keys := [jwkEc] }

/-- Header declaring ES256 and the elliptic-curve key's kid. -/
def hdrEc : Header :=
  { alg := Alg.ES256, kid := some "ec1" }

/-- A token resolving to the elliptic-curve key. -/
def tokenEc : Token :=
  { header := Except.ok hdrEc, payload := Except.ok payloadSub, sig := "sig-ec" }

/-- The authority base URL of the fixtures. -/
def authority0 : String :=
  "https://issuer.example.com"

/-- The canonical well-known JWKS URL of `authority0`. -/
def wellKnown0 : String :=
  "https://issuer.example.com/.well-known/jwks.json"

/-- An environment whose network serves `jwksAbc` at the canonical
well-known URL only, whose key builder accepts exactly `rsaAbc`, and whose
signature oracle accepts exactly the validly-signed fixture tokens under
`keyAbc` and RS256. -/
def envAbc : Env :=
  { now := 1000,
    net := fun url =>
      if url = wellKnown0 then Except.ok jwksAbc else Except.error "no route",
    post := fun _ _ => Except.error "unused",
    parseToken := fun _ => Except.error "unused",
    rsaKey := fun n e =>
      if n = "modulus-abc" ∧ e = "AQAB" then some keyAbc else none,
    verifySig := fun t k a =>
      decide ((t = tokenAbc ∨ t = tokenNoSub) ∧ k = keyAbc ∧ a = Alg.RS256) }

/-- A variant of `envAbc` whose network serves `jwksAbc` at every URL, so
refresh fetches succeed. -/
def envRefresh : Env :=
  { envAbc with net := fun _ => Except.ok jwksAbc }

/-- A variant of `envAbc` whose token endpoint answers every POST with HTTP
status 500 yet a deserializable body. -/
def envPost : Env :=
  { envAbc with
    post := fun _ _ => Except.ok (500, "tokenbody"),
    parseToken := fun s =>
      if s = "tokenbody" then Except.ok { access_token := "tok-1" }
      else Except.error "bad json" }

/-- The validation policy of the scenario: expiration and audience checks
off, `sub` required, RS256 allowed. -/
def valSub : Validation :=
  { required_spec_claims := ["sub"], leeway := 0, validate_exp := false,
    validate_nbf := false, validate_aud := false, aud := none, iss := none,
    sub := none, algorithms := [Alg.RS256] }

/-- The same policy with no required claims. -/
def valNoReq : Validation :=
  { valSub with required_spec_claims := [] }

/-- An unauthenticated client fixture. -/
def clientA : Auth0Client :=
  { client_id := "cid", client_secret := "sec",
    domain := "https://tenant.example.com",
    audience := "https://audience.example.com",
    grant_type := "client_credentials",
    access_token := none }

/-! Shared lemmas about key lookup and decoding. -/

/-- A record returned by `JwkSet.find` carries exactly the requested
identifier. -/
theorem find_kid_eq {s : JwkSet} {kid : String} {j : Jwk}
    (h : JwkSet.find s kid = some j) : j.kid = some kid := by
  unfold JwkSet.find at h
  have hp := List.find?_some h
  exact of_decide_eq_true hp

/-- When `get_jwk` succeeds, the returned record is found under the requested
identifier in the returned set. -/
theorem get_jwk_ok_find {env : Env} {kid : String} {s : JwkSet} {authority : String}
    {tr : List String} {jwk : Jwk} {s2 : JwkSet} {tr2 : List String}
    (h : get_jwk env kid s authority tr = (Except.ok (jwk, s2), tr2)) :
    JwkSet.find s2 kid = some jwk := by
  unfold get_jwk at h
  cases hf : JwkSet.find s kid with
  | some j =>
    simp only [hf, Prod.mk.injEq, Except.ok.injEq] at h
    obtain ⟨⟨h1, h2⟩, h3⟩ := h
    subst h1; subst h2
    exact hf
  | none =>
    rcases hfj : fetch_jwks env authority tr with ⟨r, trf⟩
    cases r with
    | error e => simp [hf, hfj] at h
    | ok sNew =>
      cases hf2 : JwkSet.find sNew kid with
      | some j2 =>
        simp only [hf, hfj, hf2, Prod.mk.injEq, Except.ok.injEq] at h
        obtain ⟨⟨h1, h2⟩, h3⟩ := h
        subst h1; subst h2
        exact hf2
      | none =>
        simp [hf, hfj, hf2] at h

/-- When `decode` succeeds, the token's header parsed, its algorithm is in
the policy's allow-list, the signature oracle accepted the token with the
supplied key under that algorithm, and the returned header is the token's. -/
theorem decode_ok_spec {env : Env} {token : Token} {key : DecodingKey}
    {v : Validation} {td : TokenData}
    (h : decode env token key v = Except.ok td) :
    ∃ header, token.header = Except.ok header ∧
      header.alg ∈ v.algorithms ∧
      env.verifySig token key header.alg = true ∧
      td.header = header := by
  unfold decode at h
  cases hh : token.header with
  | error e => simp [hh] at h
  | ok header =>
    refine ⟨header, rfl, ?_⟩
    by_cases hm : header.alg ∈ v.algorithms
    · cases hv : env.verifySig token key header.alg with
      | false => simp [hh, hm, hv] at h
      | true =>
        refine ⟨hm, rfl, ?_⟩
        cases hp : token.payload with
        | error e => simp [hh, hm, hv, hp] at h
        | ok claims =>
          cases hvc : validateClaims env v claims with
          | some e => simp [hh, hm, hv, hp, hvc] at h
          | none =>
            simp [hh, hm, hv, hp, hvc] at h
            rw [← h]
    · simp [hh, hm] at h

/-- When `get_jwk` succeeds, the returned set is the given one with an
unchanged trace (hit), or the freshly fetched one with exactly the raw
authority URL appended to the trace (refresh). -/
theorem get_jwk_out_cases {env : Env} {kid : String} {s : JwkSet} {authority : String}
    {tr : List String} {jwk : Jwk} {s2 : JwkSet} {tr2 : List String}
    (h : get_jwk env kid s authority tr = (Except.ok (jwk, s2), tr2)) :
    (s2 = s ∧ tr2 = tr) ∨
    (env.net (normalizeUrl authority) = Except.ok s2 ∧
     tr2 = tr ++ [normalizeUrl authority]) := by
  unfold get_jwk fetch_jwks at h
  cases hf : JwkSet.find s kid with
  | some j =>
    simp [hf] at h
    exact Or.inl ⟨h.1.2.symm, h.2.symm⟩
  | none =>
    cases hn : env.net (normalizeUrl authority) with
    | error e => simp [hf, hn] at h
    | ok sNew =>
      cases hf2 : JwkSet.find sNew kid with
      | some j2 =>
        simp [hf, hn, hf2] at h
        exact Or.inr ⟨congrArg Except.ok h.1.2, h.2.symm⟩
      | none => simp [hf, hn, hf2] at h

/-- C4: a token whose header parses but carries no `kid` is rejected with
`JwtMissingKid` with the fetch trace unchanged — no network call, and the
rejection precedes key resolution, key construction and decoding — for every
environment, authority, policy and optional cached key set. -/
theorem valid_jwt_missing_kid_no_fetch (env : Env) (token : Token) (authority : String)
    (v : Validation) (jwks : Option JwkSet) (tr : List String) (header : Header)
    (hh : token.header = Except.ok header) (hk : header.kid = none) :
    valid_jwt env token authority v jwks tr = (Except.error Error.JwtMissingKid, tr) := by
  unfold valid_jwt decode_header
  simp [hh, hk]

/-- C5: when the declared `kid` is absent from the caller-supplied set and
from the set obtained by the refresh fetch, `valid_jwt` fails with
`JwtMissingKid` and the trace grows by exactly the one refresh URL: exactly
one fetch, no retry. -/
theorem valid_jwt_kid_absent_after_refresh (env : Env) (token : Token) (authority : String)
    (v : Validation) (s : JwkSet) (tr : List String) (header : Header) (kid : String)
    (s2 : JwkSet)
    (hh : token.header = Except.ok header) (hk : header.kid = some kid)
    (h1 : JwkSet.find s kid = none)
    (hnet : env.net (normalizeUrl authority) = Except.ok s2)
    (h2 : JwkSet.find s2 kid = none) :
    valid_jwt env token authority v (some s) tr =
      (Except.error Error.JwtMissingKid, tr ++ [normalizeUrl authority]) := by
  unfold valid_jwt decode_header fetch_jwks_if_needed get_jwk fetch_jwks
  simp [hh, hk, h1, hnet, h2]

/-- C6: when the given set contains a record under the requested `kid`,
`get_jwk` returns that exact record with the set unchanged and the trace
unchanged (zero network calls); and after fetching a set, resolving a `kid`
found in it returns the identical record with no fetch beyond the initial
one. -/
theorem get_jwk_hit_no_fetch (env : Env) (kid : String) (s : JwkSet) (authority : String)
    (url : String) (tr : List String) (jwk : Jwk)
    (h : JwkSet.find s kid = some jwk) :
    get_jwk env kid s authority tr = (Except.ok (jwk, s), tr) ∧
    (env.net (normalizeUrl url) = Except.ok s →
      fetch_jwks env url tr = (Except.ok s, tr ++ [normalizeUrl url]) ∧
      get_jwk env kid s authority (tr ++ [normalizeUrl url]) =
        (Except.ok (jwk, s), tr ++ [normalizeUrl url])) := by
  refine ⟨?_, fun hnet => ⟨?_, ?_⟩⟩
  · unfold get_jwk; simp [h]
  · unfold fetch_jwks; simp [hnet]
  · unfold get_jwk; simp [h]

/-- C7: once key resolution has produced a record, a non-RSA algorithm
family, or RSA parameters the key builder cannot convert, makes `valid_jwt`
fail with `InvalidJwk`, the trace frozen at the resolution point — no
alternate key is tried. -/
theorem valid_jwt_invalid_key_material (env : Env) (token : Token) (authority : String)
    (v : Validation) (jwks : Option JwkSet) (tr : List String) (header : Header)
    (kid : String) (jwks1 : JwkSet) (tr1 : List String) (jwk : Jwk) (s2 : JwkSet)
    (tr2 : List String)
    (hh : token.header = Except.ok header) (hk : header.kid = some kid)
    (hfetch : fetch_jwks_if_needed env jwks authority tr = (Except.ok jwks1, tr1))
    (hres : get_jwk env kid jwks1 authority tr1 = (Except.ok (jwk, s2), tr2))
    (hbad : (∀ rsa, jwk.algorithm ≠ AlgorithmParameters.RSA rsa) ∨
            (∃ rsa, jwk.algorithm = AlgorithmParameters.RSA rsa ∧
                    env.rsaKey rsa.n rsa.e = none)) :
    valid_jwt env token authority v jwks tr = (Except.error Error.InvalidJwk, tr2) := by
  unfold valid_jwt decode_header
  rcases hbad with hb | ⟨rsa, hra, hrk⟩
  · cases ha : jwk.algorithm with
    | RSA rsa => exact absurd ha (hb rsa)
    | EllipticCurve => simp [hh, hk, hfetch, hres, ha]
    | OctetKey => simp [hh, hk, hfetch, hres, ha]
    | OctetKeyPair => simp [hh, hk, hfetch, hres, ha]
  · simp [hh, hk, hfetch, hres, hra, hrk]

/-- C8: the embedding of `valid_jwt` is a pure function — the caller-supplied
set (taken in Rust by shared reference and only ever cloned) is a value the
call cannot alter — and on success the returned set is either exactly the
supplied set, with no fetch, or a distinct freshly fetched set recorded in
the trace. -/
theorem valid_jwt_preserves_supplied_set (env : Env) (token : Token) (authority : String)
    (v : Validation) (s : JwkSet) (tr : List String) (td : TokenData) (out : JwkSet)
    (tr2 : List String)
    (h : valid_jwt env token authority v (some s) tr = (Except.ok (td, out), tr2)) :
    (out = s ∧ tr2 = tr) ∨
    (env.net (normalizeUrl authority) = Except.ok out ∧
     tr2 = tr ++ [normalizeUrl authority]) := by
  unfold valid_jwt decode_header fetch_jwks_if_needed at h
  cases hh : token.header with
  | error e => simp [hh] at h
  | ok header =>
    cases hk : header.kid with
    | none => simp [hh, hk] at h
    | some kid =>
      rcases hg : get_jwk env kid s authority tr with ⟨r, trg⟩
      cases r with
      | error e => simp [hh, hk, hg] at h
      | ok pr =>
        rcases pr with ⟨jwk, sx⟩
        have hcase := get_jwk_out_cases hg
        cases ha : jwk.algorithm with
        | RSA rsa =>
          cases hrk : env.rsaKey rsa.n rsa.e with
          | none => simp [hh, hk, hg, ha, hrk] at h
          | some key =>
            cases hd : decode env token key v with
            | error e => simp [hh, hk, hg, ha, hrk, hd] at h
            | ok jwt =>
              simp [hh, hk, hg, ha, hrk, hd] at h
              rw [← h.1.2, ← h.2]
              exact hcase
        | EllipticCurve => simp [hh, hk, hg, ha] at h
        | OctetKey => simp [hh, hk, hg, ha] at h
        | OctetKeyPair => simp [hh, hk, hg, ha] at h

/-- C1: whenever `valid_jwt` succeeds, the token's header parsed and declared
a `kid`; the returned key set holds a record under exactly that `kid`; that
record is an RSA record whose published parameters the key builder converted
into key material; and `decode` succeeded on the token with that key
material, which entails that the token's declared algorithm is in the
policy's allow-list and that the signature oracle accepted the token under
it. No success path bypasses this verification. -/
theorem valid_jwt_success_requires_verification (env : Env) (token : Token)
    (authority : String) (v : Validation) (jwks : Option JwkSet) (tr : List String)
    (td : TokenData) (out : JwkSet) (tr2 : List String)
    (h : valid_jwt env token authority v jwks tr = (Except.ok (td, out), tr2)) :
    ∃ header kid jwk rsa key,
      token.header = Except.ok header ∧ header.kid = some kid ∧
      JwkSet.find out kid = some jwk ∧ jwk.kid = some kid ∧
      jwk.algorithm = AlgorithmParameters.RSA rsa ∧
      env.rsaKey rsa.n rsa.e = some key ∧
      decode env token key v = Except.ok td ∧
      td.header = header ∧
      header.alg ∈ v.algorithms ∧
      env.verifySig token key header.alg = true := by
  unfold valid_jwt decode_header at h
  cases hh : token.header with
  | error e => simp [hh] at h
  | ok header =>
    cases hk : header.kid with
    | none => simp [hh, hk] at h
    | some kid =>
      rcases hfi : fetch_jwks_if_needed env jwks authority tr with ⟨rf, tr1⟩
      cases rf with
      | error e => simp [hh, hk, hfi] at h
      | ok jwks1 =>
        rcases hg : get_jwk env kid jwks1 authority tr1 with ⟨rg, trg⟩
        cases rg with
        | error e => simp [hh, hk, hfi, hg] at h
        | ok pr =>
          rcases pr with ⟨jwk, s2⟩
          cases ha : jwk.algorithm with
          | RSA rsa =>
            cases hrk : env.rsaKey rsa.n rsa.e with
            | none => simp [hh, hk, hfi, hg, ha, hrk] at h
            | some key =>
              cases hd : decode env token key v with
              | error e => simp [hh, hk, hfi, hg, ha, hrk, hd] at h
              | ok jwt =>
                simp [hh, hk, hfi, hg, ha, hrk, hd] at h
                obtain ⟨⟨h1, h2⟩, h3⟩ := h
                subst h1
                subst h2
                subst h3
                obtain ⟨header2, hh2, hm, hv, hdr⟩ := decode_ok_spec hd
                rw [hh] at hh2
                injection hh2 with hhe
                subst hhe
                exact ⟨header, kid, jwk, rsa, key, rfl, hk, get_jwk_ok_find hg,
                  find_kid_eq (get_jwk_ok_find hg), ha, hrk, hd, hdr, hm, hv⟩
          | EllipticCurve => simp [hh, hk, hfi, hg, ha] at h
          | OctetKey => simp [hh, hk, hfi, hg, ha] at h
          | OctetKeyPair => simp [hh, hk, hfi, hg, ha] at h

/-- C2: at a concrete miss, the two fetches of one verification call target
different URLs: the initial fetch GETs the canonical well-known document,
but the refresh-on-miss inside `get_jwk` GETs the raw authority URL, which
differs from the canonical well-known URL built from the same authority. -/
theorem refresh_fetch_targets_raw_authority :
    (valid_jwt envAbc tokenZzz authority0 valSub none []).2 =
      [wellKnown0, authority0] ∧
    wellKnown0 = authority0 ++ "/.well-known/jwks.json" ∧
    authority0 ≠ authority0 ++ "/.well-known/jwks.json" := by
  refine ⟨rfl, rfl, ?_⟩
  decide

/-- C3 counterexample: the scenario token (one RSA key with kid "abc",
matching signed token, expiration and audience off, `sub` required, `sub`
present) verifies successfully — but the returned `Claims` value is the
crate's empty struct `Claims.mk`, byte-for-byte the same value a `sub`-free
payload yields, so the returned value does not contain the `sub` claim. -/
theorem scenario_claims_value_contains_no_sub :
    valid_jwt envAbc tokenAbc authority0 valSub none [] =
      (Except.ok ({ header := hdrAbc, claims := Claims.mk }, jwksAbc), [wellKnown0]) ∧
    valid_jwt envAbc tokenNoSub authority0 valNoReq none [] =
      (Except.ok ({ header := hdrAbc, claims := Claims.mk }, jwksAbc), [wellKnown0]) ∧
    hasClaim payloadSub "sub" = true ∧
    hasClaim payloadNoSub "sub" = false :=
  ⟨rfl, rfl, rfl, rfl⟩

/-- C3 amended: the scenario verifies successfully, and the validation did
enforce that the payload carries `sub`; the `Claims` value returned, though,
is the empty struct, which retains no claim data. -/
theorem scenario_success_with_required_sub :
    valid_jwt envAbc tokenAbc authority0 valSub none [] =
      (Except.ok ({ header := hdrAbc, claims := Claims.mk }, jwksAbc), [wellKnown0]) ∧
    hasClaim payloadSub "sub" = true ∧
    checkRequired valSub payloadSub = none ∧
    checkRequired valSub payloadNoSub =
      some (JwtError.MissingRequiredClaim "sub") :=
  ⟨rfl, rfl, rfl, rfl⟩

/-- C9: `authenticate_with_body` never inspects the HTTP status code: given
any response — any status whatsoever paired with a body text — the outcome is
determined by deserializing the body alone: success exactly when the body
deserializes, a `Serde` error otherwise, never a status-based failure. -/
theorem authenticate_with_body_ignores_status (env : Env) (c : Auth0Client)
    (body : List (String × String)) (status : Nat) (bodyText : String)
    (hpost : env.post (normalizeUrl (c.domain ++ "/oauth/token")) body =
      Except.ok (status, bodyText)) :
    authenticate_with_body env c body =
      (match env.parseToken bodyText with
       | Except.ok r => (Except.ok r, c)
       | Except.error e => (Except.error (Error.Serde e), c)) := by
  unfold authenticate_with_body
  simp only [hpost]
  cases hpar : env.parseToken bodyText <;> simp [hpar]

/-- The client value is returned unchanged by `authenticate_with_body`,
whatever the transport and deserialization outcomes. -/
theorem authenticate_with_body_client_unchanged (env : Env) (c : Auth0Client)
    (body : List (String × String)) :
    (authenticate_with_body env c body).2 = c := by
  unfold authenticate_with_body
  cases hp : env.post (normalizeUrl (c.domain ++ "/oauth/token")) body with
  | error e => simp [hp]
  | ok pr =>
    rcases pr with ⟨st, bt⟩
    cases hq : env.parseToken bt with
    | error e => simp [hp, hq]
    | ok r => simp [hp, hq]

/-- C10: after a successful `authenticate`, the stored access token — as
`access_token()` reports it — is `some` of exactly the returned string; when
`authenticate` fails, the client, in particular its stored access token, is
left exactly as it was. -/
theorem authenticate_access_token_roundtrip (env : Env) (c : Auth0Client) :
    (∀ t c2, authenticate env c = (Except.ok t, c2) →
       c2.accessTokenMethod = some t) ∧
    (∀ e c2, authenticate env c = (Except.error e, c2) →
       c2 = c ∧ c2.accessTokenMethod = c.accessTokenMethod) := by
  constructor
  · intro t c2 h
    unfold authenticate at h
    rcases hab : authenticate_with_body env c
      [("grant_type", c.grant_type), ("client_id", c.client_id),
       ("client_secret", c.client_secret), ("audience", c.audience)] with ⟨r, c1⟩
    cases r with
    | error e => simp [hab] at h
    | ok resp =>
      simp [hab] at h
      obtain ⟨h1, h2⟩ := h
      rw [← h2]
      simp [Auth0Client.accessTokenMethod, ← h1]
  · intro e c2 h
    unfold authenticate at h
    rcases hab : authenticate_with_body env c
      [("grant_type", c.grant_type), ("client_id", c.client_id),
       ("client_secret", c.client_secret), ("audience", c.audience)] with ⟨r, c1⟩
    have hc1 : c1 = c := by
      have hu := authenticate_with_body_client_unchanged env c
        [("grant_type", c.grant_type), ("client_id", c.client_id),
         ("client_secret", c.client_secret), ("audience", c.audience)]
      rw [hab] at hu
      exact hu
    cases r with
    | ok resp => simp [hab] at h
    | error e2 =>
      simp [hab] at h
      obtain ⟨h1, h2⟩ := h
      rw [← h2, hc1]
      exact ⟨rfl, rfl⟩

/-! Witnesses: each hypothesis-bearing claim theorem applied at a concrete
input. -/

/-- Witness for C1 at the scenario input. -/
theorem valid_jwt_success_requires_verification_witness :
    valid_jwt envAbc tokenAbc authority0 valSub none [] =
      (Except.ok ({ header := hdrAbc, claims := Claims.mk }, jwksAbc), [wellKnown0]) ∧
    (∃ header kid jwk rsa key,
      tokenAbc.header = Except.ok header ∧ header.kid = some kid ∧
      JwkSet.find jwksAbc kid = some jwk ∧ jwk.kid = some kid ∧
      jwk.algorithm = AlgorithmParameters.RSA rsa ∧
      envAbc.rsaKey rsa.n rsa.e = some key ∧
      decode envAbc tokenAbc key valSub =
        Except.ok { header := hdrAbc, claims := Claims.mk } ∧
      ({ header := hdrAbc, claims := Claims.mk } : TokenData).header = header ∧
      header.alg ∈ valSub.algorithms ∧
      envAbc.verifySig tokenAbc key header.alg = true) :=
  ⟨rfl, valid_jwt_success_requires_verification envAbc tokenAbc authority0 valSub
    none [] { header := hdrAbc, claims := Claims.mk } jwksAbc [wellKnown0] rfl⟩

/-- Witness for C4 at a concrete kid-less token. -/
theorem valid_jwt_missing_kid_no_fetch_witness :
    (tokenNoKid.header = Except.ok hdrNoKid ∧ hdrNoKid.kid = none) ∧
    valid_jwt envAbc tokenNoKid authority0 valSub (some jwksAbc) [] =
      (Except.error Error.JwtMissingKid, []) :=
  ⟨⟨rfl, rfl⟩, valid_jwt_missing_kid_no_fetch envAbc tokenNoKid authority0 valSub
    (some jwksAbc) [] hdrNoKid rfl rfl⟩

/-- Witness for C5 at a concrete doubly-missing kid. -/
theorem valid_jwt_kid_absent_after_refresh_witness :
    (tokenZzz.header = Except.ok hdrZzz ∧ hdrZzz.kid = some "zzz" ∧
     JwkSet.find jwksAbc "zzz" = none ∧
     envRefresh.net (normalizeUrl authority0) = Except.ok jwksAbc) ∧
    valid_jwt envRefresh tokenZzz authority0 valSub (some jwksAbc) [] =
      (Except.error Error.JwtMissingKid, [] ++ [normalizeUrl authority0]) :=
  ⟨⟨rfl, rfl, rfl, rfl⟩, valid_jwt_kid_absent_after_refresh envRefresh tokenZzz
    authority0 valSub jwksAbc [] hdrZzz "zzz" jwksAbc rfl rfl rfl rfl rfl⟩

/-- Witness for C6 at the concrete one-key set. -/
theorem get_jwk_hit_no_fetch_witness :
    JwkSet.find jwksAbc "abc" = some jwkAbc ∧
    (get_jwk envRefresh "abc" jwksAbc authority0 [] =
       (Except.ok (jwkAbc, jwksAbc), []) ∧
     (envRefresh.net (normalizeUrl wellKnown0) = Except.ok jwksAbc →
       fetch_jwks envRefresh wellKnown0 [] =
         (Except.ok jwksAbc, [] ++ [normalizeUrl wellKnown0]) ∧
       get_jwk envRefresh "abc" jwksAbc authority0 ([] ++ [normalizeUrl wellKnown0]) =
         (Except.ok (jwkAbc, jwksAbc), [] ++ [normalizeUrl wellKnown0]))) :=
  ⟨rfl, get_jwk_hit_no_fetch envRefresh "abc" jwksAbc authority0 wellKnown0 []
    jwkAbc rfl⟩

/-- Witness for C7 at the concrete elliptic-curve key. -/
theorem valid_jwt_invalid_key_material_witness :
    (tokenEc.header = Except.ok hdrEc ∧ hdrEc.kid = some "ec1" ∧
     fetch_jwks_if_needed envAbc (some jwksEc) authority0 [] =
       (Except.ok jwksEc, []) ∧
     get_jwk envAbc "ec1" jwksEc authority0 [] =
       (Except.ok (jwkEc, jwksEc), [])) ∧
    valid_jwt envAbc tokenEc authority0 valSub (some jwksEc) [] =
      (Except.error Error.InvalidJwk, []) :=
  ⟨⟨rfl, rfl, rfl, rfl⟩,
   valid_jwt_invalid_key_material envAbc tokenEc authority0 valSub (some jwksEc)
     [] hdrEc "ec1" jwksEc [] jwkEc jwksEc [] rfl rfl rfl rfl
     (Or.inl (by intro rsa hr; simp [jwkEc] at hr))⟩

/-- Witness for C8 at the scenario input with a supplied set. -/
theorem valid_jwt_preserves_supplied_set_witness :
    valid_jwt envAbc tokenAbc authority0 valSub (some jwksAbc) [] =
      (Except.ok ({ header := hdrAbc, claims := Claims.mk }, jwksAbc), []) ∧
    ((jwksAbc = jwksAbc ∧ ([] : List String) = []) ∨
     (envAbc.net (normalizeUrl authority0) = Except.ok jwksAbc ∧
      ([] : List String) = [] ++ [normalizeUrl authority0])) :=
  ⟨rfl, valid_jwt_preserves_supplied_set envAbc tokenAbc authority0 valSub jwksAbc
    [] { header := hdrAbc, claims := Claims.mk } jwksAbc [] rfl⟩

/-- Witness for C9 at a status-500 response with a deserializable body. -/
theorem authenticate_with_body_ignores_status_witness :
    envPost.post (normalizeUrl (clientA.domain ++ "/oauth/token")) [] =
      Except.ok (500, "tokenbody") ∧
    authenticate_with_body envPost clientA [] =
      (match envPost.parseToken "tokenbody" with
       | Except.ok r => (Except.ok r, clientA)
       | Except.error e => (Except.error (Error.Serde e), clientA)) :=
  ⟨rfl, authenticate_with_body_ignores_status envPost clientA [] 500 "tokenbody" rfl⟩

/-- Witness for C10: a concrete successful authentication stores exactly the
returned token. -/
theorem authenticate_access_token_roundtrip_witness :
    authenticate envPost clientA =
      (Except.ok "tok-1", { clientA with access_token := some "tok-1" }) ∧
    Auth0Client.accessTokenMethod { clientA with access_token := some "tok-1" } =
      some "tok-1" :=
  ⟨rfl, (authenticate_access_token_roundtrip envPost clientA).1 "tok-1"
    { clientA with access_token := some "tok-1" } rfl⟩

end Auth0
